import Mathlib

/-!
Verification development for the ai-video-generator-saas repository.

The Lean definitions below are a shallow embedding of the Python source:

* `src/services/approval_service.py` (`CustomApprovalService`): the Redis/DB
  backed approval queue.  Redis structures (sorted set, sets) and the SQL
  table are modelled as explicit lists inside a `ServiceState`; the ambient
  effects `datetime.utcnow()` and `uuid.uuid4()` are passed as explicit
  arguments (`now : ℚ`, seconds since an arbitrary epoch, and
  `freshId : String`).
* `src/agents/base_agent.py` (`BaseAgent._run_with_retries`): the retry loop,
  with `func` modelled as an attempt-indexed oracle and the `time.sleep`
  calls recorded in an output trace.
* `src/agents/screenplay/screenplay_agent.py`,
  `src/agents/screenplay/screenplay_merger_agent.py`,
  `src/agents/screenplay/merger.py` and the helpers from
  `src/core/utils.py`: text processing is modelled over Lean `String`s,
  with Python regexes translated to explicit line-level scanners
  (documented at each definition).  Characters are treated as ASCII, which
  is what all the screenplay markers in the source use.
-/

namespace AIVideo

/-- Instants and durations are rational numbers of seconds since an arbitrary
epoch, mirroring `datetime` arithmetic via `total_seconds()`.  -/
abbrev Time := ℚ

/-- Enum `ApprovalStatus` from `src/database/models.py`. -/
inductive ApprovalStatus where
  | pending
  | approved
  | rejected
  | revision_requested
deriving Repr, DecidableEq

/-- Enum `WorkflowStage` from `src/database/models.py`. -/
inductive WorkflowStage where
  | script_input
  | screenplay_generation
  | shot_division
  | production_planning
  | character_design
  | scene_generation
  | video_generation
  | final_synthesis
deriving Repr, DecidableEq

/-- Enum `ApprovalType` from `src/services/approval_service.py`. -/
inductive ApprovalType where
  | screenplay
  | shot_division
  | character_design
  | scene_selection
  | video_approval
  | production_plan
deriving Repr, DecidableEq

/-- One row of the `approval_requests` table (`ApprovalRequest` in
`src/database/models.py`).  JSON payload columns (`approval_data`,
`options`) are carried as opaque strings; the timestamp bookkeeping columns
`created_at`/`updated_at` (unused by the service logic) are omitted. -/
structure ApprovalRecord where
  id : String
  project_id : String
  stage : WorkflowStage
  approval_type : ApprovalType
  entity_id : String
  title : String
  description : String
  approval_data : String
  options : String
  status : ApprovalStatus
  assigned_to : Option String
  priority : Nat
  approved_at : Option Time
  approved_by : Option String
  selected_option : Option String
  feedback : Option String
  revision_notes : Option String
  requested_at : Time
  due_date : Option Time
  response_time_seconds : Option Int
deriving Repr, DecidableEq

/-- The JSON object pushed onto the Redis sorted set `approval_queue` by
`create_approval_request` (`queue_item` in the source). -/
structure QueueItem where
  approval_id : String
  project_id : String
  stage : WorkflowStage
  type : ApprovalType
  title : String
  priority : Nat
  created_at : Time
  assigned_to : Option String
  due_date : Option Time
deriving Repr, DecidableEq

/-- The whole mutable state touched by `CustomApprovalService`: the SQL table
(`db`, in insertion order), the Redis sorted set `approval_queue` (member
and score pairs), the Redis set `pending_approvals`, the per-user Redis sets
`user_assignments:{user}` (flattened to user and approval-id pairs) and the
pub/sub notification channel (event types, in publish order). -/
structure ServiceState where
  db : List ApprovalRecord
  queue : List (QueueItem × ℚ)
  pendingSet : List String
  assignments : List (String × String)
  notifications : List String
deriving Repr, DecidableEq

/-- The empty service state: empty table, empty Redis keys. -/
def ServiceState.empty : ServiceState :=
  { db := [], queue := [], pendingSet := [], assignments := [], notifications := [] }

/-- Python builtin `min` on two numbers: the first argument when the two
compare equal. -/
def pyMin (a b : ℚ) : ℚ :=
  if a ≤ b then a else b

/-- `CustomApprovalService._calculate_priority_score`.  `now` stands for the
two `datetime.utcnow()` reads in the body (the age read and the due-date
read), `priority` for `priority.value`.  Scores are exact rationals, the
shallow embedding of Python floats on these small magnitudes. -/
def calculatePriorityScore (now : Time) (priority : Nat) (created_at : Time)
    (due_date : Option Time) : ℚ :=
  let base_score : ℚ := (priority : ℚ) * 1000
  let age_hours : ℚ := (now - created_at) / 3600
  let age_score : ℚ := pyMin (age_hours * 10) 500
  let due_score : ℚ :=
    match due_date with
    | none => 0
    | some due =>
        let hours_until_due : ℚ := (due - now) / 3600
        if hours_until_due < 0 then 1000
        else if hours_until_due < 24 then 500
        else if hours_until_due < 72 then 200
        else 0
  base_score + age_score + due_score

/-- Redis `SADD` on a set modelled as a duplicate-free list. -/
def sadd (s : List String) (x : String) : List String :=
  if x ∈ s then s else s ++ [x]

/-- Redis `SREM`. -/
def srem (s : List String) (x : String) : List String :=
  s.filter (fun y => y ≠ x)

/-- Redis `SADD` on a per-user assignment set, flattened to pairs. -/
def saddPair (s : List (String × String)) (x : String × String) :
    List (String × String) :=
  if x ∈ s then s else s ++ [x]

/-- Redis `SREM` on a per-user assignment set. -/
def sremPair (s : List (String × String)) (x : String × String) :
    List (String × String) :=
  s.filter (fun y => y ≠ x)

/-- Redis `ZADD`: if the member is already present its score is updated,
otherwise the member is added. -/
def zadd (q : List (QueueItem × ℚ)) (member : QueueItem) (score : ℚ) :
    List (QueueItem × ℚ) :=
  if (q.filter (fun e => e.1 = member)).isEmpty then q ++ [(member, score)]
  else q.map (fun e => if e.1 = member then (member, score) else e)

/-- Ordering used by Redis `ZREVRANGE`: descending score; members with equal
scores come back in reverse lexicographic member order.  Every member JSON
string starts with its `approval_id` field, so the member order on distinct
ids is the id order; the theorems below never rely on equal-score ties. -/
def queueBefore (a b : QueueItem × ℚ) : Bool :=
  if a.2 = b.2 then b.1.approval_id < a.1.approval_id else b.2 < a.2

/-- Insertion into a list sorted by `queueBefore`. -/
def insertByScore (x : QueueItem × ℚ) :
    List (QueueItem × ℚ) → List (QueueItem × ℚ)
  | [] => [x]
  | y :: ys => if queueBefore x y then x :: y :: ys else y :: insertByScore x ys

/-- Redis `ZREVRANGE key 0 (limit-1)`: the members sorted by descending
score, truncated to `limit` entries. -/
def zrevrange (q : List (QueueItem × ℚ)) (limit : Nat) : List QueueItem :=
  ((q.foldr insertByScore []).map (fun e => e.1)).take limit

/-- The arguments of `create_approval_request` that name the request being
enqueued (everything except the service state and the ambient effects). -/
structure CreateParams where
  project_id : String
  stage : WorkflowStage
  approval_type : ApprovalType
  entity_id : String
  title : String
  description : String
  approval_data : String
  options : String
  assigned_to : Option String
  priority : Nat
  due_date : Option Time
deriving Repr, DecidableEq

/-- The `PENDING` row inserted by `create_approval_request` (the
`ApprovalRequest(...)` construction in its body, with the column defaults of
the model). -/
def newApprovalRecord (freshId : String) (now : Time) (p : CreateParams) :
    ApprovalRecord :=
  { id := freshId
    project_id := p.project_id
    stage := p.stage
    approval_type := p.approval_type
    entity_id := p.entity_id
    title := p.title
    description := p.description
    approval_data := p.approval_data
    options := p.options
    status := ApprovalStatus.pending
    assigned_to := p.assigned_to
    priority := p.priority
    approved_at := none
    approved_by := none
    selected_option := none
    feedback := none
    revision_notes := none
    requested_at := now
    due_date := p.due_date
    response_time_seconds := none }

/-- The `queue_item` dictionary built by `create_approval_request`. -/
def newQueueItem (freshId : String) (now : Time) (p : CreateParams) :
    QueueItem :=
  { approval_id := freshId
    project_id := p.project_id
    stage := p.stage
    type := p.approval_type
    title := p.title
    priority := p.priority
    created_at := now
    assigned_to := p.assigned_to
    due_date := p.due_date }

/-- `CustomApprovalService.create_approval_request`.  `freshId` stands for
the `uuid.uuid4()` draw and `now` for the `datetime.utcnow()` reads (the
row default `requested_at`, the queue item `created_at` and the score
computation all happen in the same call).  The body unconditionally inserts
a new `PENDING` row, pushes the queue item with its priority score, adds the
id to the pending set and to the assignee set, and publishes an
`approval_created` notification; there is no lookup of existing requests. -/
def createApprovalRequest (s : ServiceState) (freshId : String) (now : Time)
    (p : CreateParams) : ServiceState × String :=
  let record := newApprovalRecord freshId now p
  let item := newQueueItem freshId now p
  let score := calculatePriorityScore now p.priority now p.due_date
  let s1 : ServiceState :=
    { db := s.db ++ [record]
      queue := zadd s.queue item score
      pendingSet := sadd s.pendingSet freshId
      assignments :=
        match p.assigned_to with
        | some u => saddPair s.assignments (u, freshId)
        | none => s.assignments
      notifications := s.notifications ++ ["approval_created"] }
  (s1, freshId)

/-- The dictionary built for each entry returned by
`get_pending_approvals`. -/
structure PendingView where
  id : String
  project_id : String
  stage : WorkflowStage
  type : ApprovalType
  entity_id : String
  title : String
  description : String
  approval_data : String
  options : String
  priority : Nat
  assigned_to : Option String
  created_at : Time
  due_date : Option Time
  queue_score : Nat
deriving Repr, DecidableEq

/-- SQLAlchemy `scalar_one_or_none` on a by-id select: the first row whose id
matches.  (It would raise on duplicate ids; every state built by the service
uses fresh uuid ids, and the theorems that need it assume id uniqueness.) -/
def findRecord (db : List ApprovalRecord) (id : String) :
    Option ApprovalRecord :=
  db.find? (fun r => r.id = id)

/-- `CustomApprovalService.get_pending_approvals`.  `now` is the read-time
clock, passed for the spec comparison: the body never consults it.  The
Redis `zrevrange` is taken first (already truncated to `limit`), then the
user, project and type filters are applied, then each surviving id is looked
up in the database and kept only when its row is still `PENDING`.  The
`queue_score` field reproduces the source quirk `queue_data.get("priority", 0)`:
it holds the priority field of the queue item, not the score. -/
def getPendingApprovals (s : ServiceState) (user_id : Option String)
    (project_id : Option String) (approval_type : Option ApprovalType)
    (limit : Nat) (now : Time) : List PendingView :=
  let _ := now
  let items := zrevrange s.queue limit
  items.filterMap (fun item =>
    if user_id.isSome ∧ item.assigned_to ≠ user_id then none
    else if project_id.isSome ∧ some item.project_id ≠ project_id then none
    else if approval_type.isSome ∧ some item.type ≠ approval_type then none
    else
      match findRecord s.db item.approval_id with
      | none => none
      | some approval =>
          if approval.status = ApprovalStatus.pending then
            some
              { id := approval.id
                project_id := approval.project_id
                stage := approval.stage
                type := approval.approval_type
                entity_id := approval.entity_id
                title := approval.title
                description := approval.description
                approval_data := approval.approval_data
                options := approval.options
                priority := approval.priority
                assigned_to := approval.assigned_to
                created_at := approval.requested_at
                due_date := approval.due_date
                queue_score := item.priority }
          else none)

/-- Removal of the first sorted-set member with a given approval id, as in
the loop of `_remove_from_queue` (which breaks after the first match). -/
def removeFirstMember (q : List (QueueItem × ℚ)) (id : String) :
    List (QueueItem × ℚ) :=
  match q with
  | [] => []
  | e :: rest =>
      if e.1.approval_id = id then rest else e :: removeFirstMember rest id

/-- `CustomApprovalService._remove_from_queue`: drop the first queue member
with the id, `SREM` the id from `pending_approvals`, then look the row up in
the database and, when it has an assignee, `SREM` the id from that user
assignment set. -/
def removeFromQueue (s : ServiceState) (id : String) : ServiceState :=
  let s1 := { s with
    queue := removeFirstMember s.queue id
    pendingSet := srem s.pendingSet id }
  match findRecord s.db id with
  | some r =>
      match r.assigned_to with
      | some u => { s1 with assignments := sremPair s1.assignments (u, id) }
      | none => s1
  | none => s1

/-- The dictionary returned by `submit_approval_response` on success. -/
structure SubmitResponse where
  approval_id : String
  status : ApprovalStatus
  approved : Bool
  response_time : ℚ
  processed_at : Time
deriving Repr, DecidableEq

/-- The status written by `submit_approval_response`:
`APPROVED if approved else (REVISION_REQUESTED if revision_notes else REJECTED)`.
Python truthiness on an optional string: `None` is falsy; the service layer
passes `revision_notes` straight from the API, so a present value is a
non-empty note and is modelled as `some`. -/
def responseStatus (approved : Bool) (revision_notes : Option String) :
    ApprovalStatus :=
  if approved then ApprovalStatus.approved
  else if revision_notes.isSome then ApprovalStatus.revision_requested
  else ApprovalStatus.rejected

/-- `CustomApprovalService.submit_approval_response`.  `now` stands for the
`datetime.utcnow()` reads in the call (response-time read and `approved_at`
write).  The two guard failures raise `ApprovalServiceError`, re-wrapped by
the outer handler into a `Failed to submit response
` message; both are modelled as `Except.error` of the inner message, with
the state unchanged (the transaction never commits).  On success the row is
updated in place (the SQL `UPDATE ... WHERE id = approval_id` touches every
row with the id), committed, and the id is removed from the Redis queue; an
`approval_response` notification is published. -/
def submitApprovalResponse (s : ServiceState) (approval_id : String)
    (user_id : String) (approved : Bool) (selected_option : Option String)
    (feedback : Option String) (revision_notes : Option String) (now : Time) :
    Except String (ServiceState × SubmitResponse) :=
  match findRecord s.db approval_id with
  | none => Except.error "Approval request not found"
  | some approval =>
      if approval.status ≠ ApprovalStatus.pending then
        Except.error "Approval request already processed"
      else
        let response_time : ℚ := now - approval.requested_at
        let new_status := responseStatus approved revision_notes
        let db1 := s.db.map (fun r =>
          if r.id = approval_id then
            { r with
              status := new_status
              approved_at := some now
              approved_by := some user_id
              selected_option := selected_option
              feedback := feedback
              revision_notes := revision_notes
              response_time_seconds := some ⌊response_time⌋ }
          else r)
        let s1 := removeFromQueue { s with db := db1 } approval_id
        let s2 := { s1 with
          notifications := s1.notifications ++ ["approval_response"] }
        Except.ok (s2,
          { approval_id := approval_id
            status := new_status
            approved := approved
            response_time := response_time
            processed_at := now })

/-- `CustomApprovalService.reassign_approval`: only a `PENDING` row is
reassigned; otherwise the call returns `False` with no state change.  On
success the row and the two per-user Redis assignment sets are updated and a
notification is published. -/
def reassignApproval (s : ServiceState) (approval_id : String)
    (new_assignee : String) : ServiceState × Bool :=
  match findRecord s.db approval_id with
  | none => (s, false)
  | some approval =>
      if approval.status ≠ ApprovalStatus.pending then (s, false)
      else
        let old_assignee := approval.assigned_to
        let db1 := s.db.map (fun r =>
          if r.id = approval_id then { r with assigned_to := some new_assignee }
          else r)
        let assigns1 :=
          match old_assignee with
          | some u => sremPair s.assignments (u, approval_id)
          | none => s.assignments
        ({ s with
            db := db1
            assignments := saddPair assigns1 (new_assignee, approval_id)
            notifications := s.notifications ++ ["approval_reassigned"] },
          true)

/-- `CustomApprovalService.cancel_approval`.  The SQL `UPDATE` filters only
on the id: every row with the id is set to `REJECTED` with the cancel
feedback, with no check of its current status; then the id is removed from
the Redis queue and a notification is published; the call returns `True`. -/
def cancelApproval (s : ServiceState) (approval_id : String)
    (cancelled_by : String) (reason : String) (now : Time) :
    ServiceState × Bool :=
  let db1 := s.db.map (fun r =>
    if r.id = approval_id then
      { r with
        status := ApprovalStatus.rejected
        approved_at := some now
        approved_by := some cancelled_by
        feedback := some ("Cancelled: " ++ reason) }
    else r)
  let s1 := removeFromQueue { s with db := db1 } approval_id
  ({ s1 with notifications := s1.notifications ++ ["approval_cancelled"] },
    true)

/-- The guard of the expiry sweep select: status `PENDING` and
`due_date < utcnow` (SQL comparison with a NULL `due_date` selects
nothing). -/
def isExpired (r : ApprovalRecord) (now : Time) : Bool :=
  decide (r.status = ApprovalStatus.pending) &&
    (match r.due_date with
     | some due => decide (due < now)
     | none => false)

/-- One iteration of the sweep loop body of `cleanup_expired_approvals`:
update every row with the id to `REJECTED` with the expiration feedback,
then remove the id from the Redis queue. -/
def expireOne (now : Time) (s : ServiceState) (id : String) : ServiceState :=
  let db1 := s.db.map (fun r =>
    if r.id = id then
      { r with
        status := ApprovalStatus.rejected
        approved_at := some now
        feedback := some "Automatically rejected due to expiration" }
    else r)
  removeFromQueue { s with db := db1 } id

/-- `CustomApprovalService.cleanup_expired_approvals`: select the rows that
are `PENDING` with a passed `due_date`, then run the sweep body on each of
them in select order.  `now` stands for the `utcnow` reads of the call. -/
def cleanupExpiredApprovals (s : ServiceState) (now : Time) : ServiceState :=
  let expired := (s.db.filter (fun r => isExpired r now)).map (fun r => r.id)
  expired.foldl (expireOne now) s

/-- One entry of the list returned by `get_approval_history`. -/
structure HistoryView where
  id : String
  stage : WorkflowStage
  type : ApprovalType
  title : String
  status : ApprovalStatus
  requested_at : Time
  approved_at : Option Time
  approved_by : Option String
  selected_option : Option String
  feedback : Option String
  response_time : Option Int
deriving Repr, DecidableEq

/-- Insertion into a list of records sorted by descending `requested_at`. -/
def insertByRequestedAt (x : ApprovalRecord) :
    List ApprovalRecord → List ApprovalRecord
  | [] => [x]
  | y :: ys =>
      if y.requested_at < x.requested_at then x :: y :: ys
      else y :: insertByRequestedAt x ys

/-- `CustomApprovalService.get_approval_history`: every row of the project
(resolved or not), ordered by descending `requested_at`, truncated to
`limit`. -/
def getApprovalHistory (s : ServiceState) (project_id : String)
    (limit : Nat) : List HistoryView :=
  let rows := (s.db.filter (fun r => r.project_id = project_id)).foldr
    insertByRequestedAt []
  (rows.take limit).map (fun r =>
    { id := r.id
      stage := r.stage
      type := r.approval_type
      title := r.title
      status := r.status
      requested_at := r.requested_at
      approved_at := r.approved_at
      approved_by := r.approved_by
      selected_option := r.selected_option
      feedback := r.feedback
      response_time := r.response_time_seconds })

/-! ### Python string primitives

The helpers below translate the Python string operations used by the text
pipeline.  All screenplay markers in the source are ASCII, so `str.strip`,
`str.isupper`, `str.upper` and the regex classes `\s`, `\w`, `[A-Z]` are
modelled on their ASCII meaning. -/

/-- Python whitespace for `str.strip` and the regex class `\s` (ASCII
range). -/
def pyIsSpace (c : Char) : Bool :=
  c = ' ' || c = '\t' || c = '\n' || c = '\x0d' || c = '\x0b' || c = '\x0c'

/-- Python `str.strip()` with no arguments. -/
def pyStrip (s : String) : String :=
  ((s.data.dropWhile pyIsSpace).reverse.dropWhile pyIsSpace).reverse.asString

/-- Python `str.isupper()`: at least one cased character and no lowercase
one. -/
def pyIsUpper (s : String) : Bool :=
  s.data.any (fun c => c.isAlpha) && s.data.all (fun c => ¬ c.isLower)

/-- Python `str.upper()` on ASCII text. -/
def pyUpper (s : String) : String :=
  (s.data.map Char.toUpper).asString

/-- ASCII-lowered copy, for the `re.IGNORECASE` comparisons. -/
def lowerAscii (s : String) : String :=
  (s.data.map Char.toLower).asString

/-- Python `str.startswith` on ASCII text. -/
def strStartsWith (s p : String) : Bool :=
  s.data.take p.data.length = p.data

/-- Python `str.endswith` on ASCII text. -/
def strEndsWith (s p : String) : Bool :=
  s.data.reverse.take p.data.length = p.data.reverse

/-- Case-insensitive `str.startswith` (for `re.match` with
`re.IGNORECASE`). -/
def startsWithCI (s pre : String) : Bool :=
  lowerAscii (s.take pre.length) = lowerAscii pre

/-- Split of a character list at every character satisfying `p`, keeping
empty pieces, as Python `str.split(sep)` with a one-character separator
does. -/
def splitCharsBy (p : Char → Bool) : List Char → List (List Char)
  | [] => [[]]
  | d :: rest =>
      match splitCharsBy p rest with
      | [] => []
      | g :: gs => if p d then [] :: g :: gs else (d :: g) :: gs

/-- Lines of a text, as split by `str.split("\n")` (which regex `MULTILINE`
anchors agree with: `^` matches at the start of each such piece, `$` just
before each newline and at the end). -/
def splitLines (s : String) : List String :=
  (splitCharsBy (fun c => c = '\n') s.data).map List.asString

/-- Python `str.split` on the two-character separator used by
`merge_screenplays` (leftmost non-overlapping occurrences). -/
def splitDoubleNewline : List Char → List (List Char)
  | [] => [[]]
  | '\n' :: '\n' :: rest => [] :: splitDoubleNewline rest
  | d :: rest =>
      match splitDoubleNewline rest with
      | [] => []
      | g :: gs => (d :: g) :: gs

/-! ### src/core/utils.py -/

/-- The group matched at the start of a line by the `extract_scene_headings`
pattern `^(INT\.|EXT\.|FADE IN:|FADE OUT:).*$` with `IGNORECASE`: the
leading marker as written in the text, tried in alternation order. -/
def utilsHeadingMarker (line : String) : Option String :=
  if startsWithCI line "INT." then some (line.take 4)
  else if startsWithCI line "EXT." then some (line.take 4)
  else if startsWithCI line "FADE IN:" then some (line.take 8)
  else if startsWithCI line "FADE OUT:" then some (line.take 9)
  else none

/-- `core.utils.extract_scene_headings`: `re.findall` of the pattern above
returns the group (the marker) for each matching line, then each result is
stripped. -/
def extractSceneHeadings (s : String) : List String :=
  (splitLines s).filterMap (fun line => (utilsHeadingMarker line).map pyStrip)

/-- The `scene_heading_pattern` prefix test of
`core.utils.extract_character_names` (with `IGNORECASE`). -/
def isSceneHeadingStart (line : String) : Bool :=
  startsWithCI line "INT." || startsWithCI line "EXT." ||
    startsWithCI line "FADE" || startsWithCI line "CUT TO:" ||
    startsWithCI line "DISSOLVE TO:"

/-- The `transition_pattern` prefix test of
`core.utils.extract_character_names` (with `IGNORECASE`). -/
def isTransitionStart (line : String) : Bool :=
  startsWithCI line "CUT TO:" || startsWithCI line "FADE TO:" ||
    startsWithCI line "DISSOLVE TO:" || startsWithCI line "FADE IN:" ||
    startsWithCI line "FADE OUT:"

/-- A Python `set` built by repeated insertion, modelled as the list of
first occurrences in insertion order (CPython leaves set iteration order
unspecified; the code below only relies on membership and size). -/
def dedupKeepFirst (l : List String) : List String :=
  l.foldl (fun acc x => if x ∈ acc then acc else acc ++ [x]) []

/-- `core.utils.extract_character_names`: stripped lines that are uppercase,
not scene headings or transitions, and of length 2 to 29, collected in a
`set`. -/
def extractCharacterNames (s : String) : List String :=
  dedupKeepFirst (((splitLines s).map pyStrip).filter (fun line =>
    pyIsUpper line && ¬ isSceneHeadingStart line && ¬ isTransitionStart line &&
      line.length > 1 && line.length < 30))

/-- Loop state of `core.utils.extract_dialogue_from_screenplay`: the current
character and the dict built so far (Python dicts preserve insertion
order). -/
def dialogueStep (st : Option String × List (String × List String))
    (rawLine : String) : Option String × List (String × List String) :=
  let line := pyStrip rawLine
  let (current, dict) := st
  if pyIsUpper line && line.length > 1 && line.length < 30 then
    if ¬ (strStartsWith line "INT." || strStartsWith line "EXT." ||
          strStartsWith line "FADE" || strStartsWith line "CUT TO:" ||
          strStartsWith line "DISSOLVE TO:") then
      if (dict.find? (fun kv => kv.1 = line)).isSome then (some line, dict)
      else (some line, dict ++ [(line, [])])
    else (current, dict)
  else
    match current with
    | some ch =>
        if line ≠ "" && ¬ pyIsUpper line then
          if ¬ strStartsWith line "(" && ¬ strEndsWith line ")" then
            (current, dict.map (fun kv =>
              if kv.1 = ch then (kv.1, kv.2 ++ [line]) else kv))
          else (current, dict)
        else (current, dict)
    | none => (current, dict)

/-- `core.utils.extract_dialogue_from_screenplay`: dialogue lines grouped
under the most recent character-name line. -/
def extractDialogueFromScreenplay (s : String) :
    List (String × List String) :=
  ((splitLines s).foldl dialogueStep (none, [])).2

/-- `core.utils.validate_screenplay_format`: the list of issues, in source
order.  `not screenplay or len(screenplay.strip()) < 100` is the too-short
test; the other three tests are emptiness of the extractors above. -/
def validateScreenplayFormat (screenplay : String) : List String :=
  let issues1 :=
    if screenplay = "" || (pyStrip screenplay).length < 100 then
      ["Screenplay too short"] else []
  let issues2 :=
    if (extractSceneHeadings screenplay).isEmpty then
      ["No scene headings found"] else []
  let issues3 :=
    if (extractCharacterNames screenplay).isEmpty then
      ["No character names found"] else []
  let issues4 :=
    if (extractDialogueFromScreenplay screenplay).isEmpty then
      ["No dialogue found"] else []
  issues1 ++ issues2 ++ issues3 ++ issues4

/-! ### src/agents/screenplay/merger.py -/

/-- The prefix matched at the start of a line by the merger pattern
`^(INT\.|EXT\.|I/E\.|EST\.).*` (case sensitive), tried in alternation
order. -/
def mergerScenePrefixOf (line : String) : Option String :=
  if strStartsWith line "INT." then some "INT."
  else if strStartsWith line "EXT." then some "EXT."
  else if strStartsWith line "I/E." then some "I/E."
  else if strStartsWith line "EST." then some "EST."
  else none

/-- `merger.extract_scene_headings`: `re.findall` returns the group, i.e.
the scene marker, for each line that starts with one. -/
def extractSceneHeadingsMerger (s : String) : List String :=
  (splitLines s).filterMap mergerScenePrefixOf

/-- Character allowed after the first letter of a dialogue speaker line by
the class `[A-Z0-9_ ]`. -/
def capsBodyChar (c : Char) : Bool :=
  (c.isUpper && c.isAlpha) || c.isDigit || c = '_' || c = ' '

/-- One `re.findall` match attempt of the `extract_dialogue_blocks` pattern
`(^[A-Z][A-Z0-9_ ]+\n(?:\([^\)]*\)\n)?[\s\S]+?(?=\n\n|$))` (MULTILINE) at a
line-start position, on the remaining characters.  Reading of the regex:

* the speaker line is a maximal run of `[A-Z0-9_ ]` starting with `[A-Z]`,
  of length at least 2, followed directly by a newline;
* the optional parenthetical starts with `(`, runs to the first `)` (the
  class `[^\)]` crosses newlines), and that `)` must be followed directly by
  a newline; if afterwards no content character remains, the engine
  backtracks and drops the optional group;
* the lazy tail with the lookahead (in which the MULTILINE `$` matches
  before every newline) consumes the shortest non-empty prefix ending just
  before a newline or at the end of the text.

Returns the matched block and the remaining characters after the match. -/
def tryDialogueBlockAt (cs : List Char) : Option (List Char × List Char) :=
  let run := cs.takeWhile capsBodyChar
  match run with
  | [] => none
  | c0 :: _ =>
      if ¬ (c0.isUpper && c0.isAlpha) then none
      else if run.length < 2 then none
      else
        match cs.drop run.length with
        | '\n' :: afterCaps =>
            let content : List Char → Option (List Char × List Char) :=
              fun l =>
                match l with
                | [] => none
                | c :: r =>
                    let tail := r.takeWhile (fun d => d ≠ '\n')
                    some (c :: tail, r.drop tail.length)
            let withParen : Option (List Char × List Char) :=
              match afterCaps with
              | '(' :: t =>
                  let inside := t.takeWhile (fun d => d ≠ ')')
                  match t.drop inside.length with
                  | ')' :: '\n' :: r =>
                      some ('(' :: inside ++ [')', '\n'], r)
                  | _ => none
              | _ => none
            match withParen with
            | some (p, r) =>
                match content r with
                | some (ct, rest) => some (run ++ '\n' :: (p ++ ct), rest)
                | none =>
                    match content afterCaps with
                    | some (ct, rest) => some (run ++ '\n' :: ct, rest)
                    | none => none
            | none =>
                match content afterCaps with
                | some (ct, rest) => some (run ++ '\n' :: ct, rest)
                | none => none
        | _ => none

/-- Scan loop of `re.findall` for the dialogue-block pattern: try a match at
every line start, restart after the end of each match.  `fuel` only bounds
the recursion; every step consumes at least one character, so the initial
fuel `cs.length + 1` never runs out. -/
def scanDialogueBlocks (fuel : Nat) (cs : List Char) (atLineStart : Bool) :
    List String :=
  match fuel with
  | 0 => []
  | fuel + 1 =>
      match cs with
      | [] => []
      | _ :: _ =>
          if atLineStart then
            match tryDialogueBlockAt cs with
            | some (b, rest) =>
                b.asString :: scanDialogueBlocks fuel rest false
            | none =>
                let skipped := cs.dropWhile (fun d => d ≠ '\n')
                match skipped with
                | _ :: r => scanDialogueBlocks fuel r true
                | [] => []
          else
            let skipped := cs.dropWhile (fun d => d ≠ '\n')
            match skipped with
            | _ :: r => scanDialogueBlocks fuel r true
            | [] => []

/-- `merger.extract_dialogue_blocks`. -/
def extractDialogueBlocks (s : String) : List String :=
  scanDialogueBlocks (s.data.length + 1) s.data true

/-- Loop state of the first merge pass of `merger.merge_screenplays`:
accumulated `merged_lines`, `used_scenes`, `used_dialogue`. -/
structure MergePass where
  merged_lines : List String
  used_scenes : List String
  used_dialogue : List String
deriving Repr, DecidableEq

/-- One iteration over an `openai_lines` paragraph. -/
def mergeStep (scene_headings dialogue_blocks : List String)
    (st : MergePass) (rawBlock : String) : MergePass :=
  let block := pyStrip rawBlock
  if block = "" then st
  else if block ∈ scene_headings ∧ block ∉ st.used_scenes then
    { st with
      merged_lines := st.merged_lines ++ [block]
      used_scenes := st.used_scenes ++ [block] }
  else if block ∈ dialogue_blocks ∧ block ∉ st.used_dialogue then
    { st with
      merged_lines := st.merged_lines ++ [block]
      used_dialogue := st.used_dialogue ++ [block] }
  else { st with merged_lines := st.merged_lines ++ [block] }

/-- The merged text assembled by `merger.merge_screenplays` before its
output validation.  The Python `set`s of headings and blocks are modelled as
lists in first-insertion order (they are only used for membership tests and
for the fill-in iteration; CPython leaves set iteration order unspecified,
and no theorem below depends on that order). -/
def mergedScreenplayText (openai claude gemini : String) : String :=
  let all_versions := [openai, claude, gemini]
  let scene_headings :=
    dedupKeepFirst ((all_versions.map extractSceneHeadingsMerger).flatten)
  let dialogue_blocks :=
    dedupKeepFirst ((all_versions.map extractDialogueBlocks).flatten)
  let openai_lines := (splitDoubleNewline openai.data).map List.asString
  let pass1 := openai_lines.foldl (mergeStep scene_headings dialogue_blocks)
    { merged_lines := [], used_scenes := [], used_dialogue := [] }
  let afterFill := dialogue_blocks.foldl
    (fun st block =>
      if block ∈ st.used_dialogue then st
      else { st with
        merged_lines := st.merged_lines ++ [block]
        used_dialogue := st.used_dialogue ++ [block] })
    pass1
  let finalLines := (all_versions.map extractDialogueBlocks).flatten.foldl
    (fun acc block => if block ∈ acc then acc else acc ++ [block])
    afterFill.merged_lines
  String.intercalate "\n\n" finalLines

/-- `merger.merge_screenplays`: assemble the merged text, then raise a
`ValueError` when the merged output has no scene heading or no dialogue
block; otherwise return the merged text. -/
def mergeScreenplays (openai claude gemini : String) :
    Except String String :=
  let merged := mergedScreenplayText openai claude gemini
  if (extractSceneHeadingsMerger merged).isEmpty then
    Except.error "Merged screenplay missing scene headings."
  else if (extractDialogueBlocks merged).isEmpty then
    Except.error "Merged screenplay missing dialogue blocks."
  else Except.ok merged

/-! ### src/agents/base_agent.py -/

/-- Recursive core of `BaseAgent._run_with_retries`.  The callable is an
attempt-indexed oracle (`f attempt` is the outcome of the call made on that
1-based attempt); the second component records the argument of each
`time.sleep` call, in order.  `remaining` counts the attempts still
available including the current one, i.e. `max_retries - attempt + 1`, so
the `attempt < max_retries` test of the source is `remaining > 1`: a sleep
of the constant `retry_delay` happens after every failed attempt except the
last.  `remaining = 0` is the empty loop of `max_retries = 0`, where CPython
fails re-raising `None`. -/
def runRetriesFrom (f : Nat → Except String String) (retry_delay : ℚ)
    (attempt : Nat) : Nat → Except String String × List ℚ
  | 0 => (Except.error "TypeError: exceptions must derive from BaseException",
      [])
  | remaining + 1 =>
      match f attempt with
      | Except.ok v => (Except.ok v, [])
      | Except.error e =>
          if remaining = 0 then (Except.error e, [])
          else
            let next := runRetriesFrom f retry_delay (attempt + 1) remaining
            (next.1, retry_delay :: next.2)

/-- `BaseAgent._run_with_retries`: attempts run from 1 to `max_retries`; on
exhaustion the last exception is re-raised. -/
def runWithRetries (max_retries : Nat) (retry_delay : ℚ)
    (f : Nat → Except String String) : Except String String × List ℚ :=
  runRetriesFrom f retry_delay 1 max_retries

/-! ### src/agents/screenplay/screenplay_agent.py -/

/-- The `SCREENPLAY_PROMPT` template applied to the script text. -/
def screenplayFormatPrompt (script : String) : String :=
  "You are a professional screenwriter. Format the following text into " ++
  "proper screenplay format, including scene headings, action lines, " ++
  "character names, dialogue, and transitions. " ++
  "Use industry-standard screenplay conventions.\n\nText:\n" ++ script

/-- The three optional provider backends of a `BaseAgent` (`self.llms`),
each modelled as an oracle from the prompt and the 1-based attempt number to
the outcome of `llm.invoke`. -/
structure FormatterLLMs where
  openai : Option (String → Nat → Except String String)
  claude : Option (String → Nat → Except String String)
  gemini : Option (String → Nat → Except String String)

/-- The dictionary returned by `ScreenplayFormattingAgent.process`. -/
structure FormatterResults where
  openai_screenplay : Option String
  claude_screenplay : Option String
  gemini_screenplay : Option String
deriving Repr, DecidableEq

/-- One of the three inner `call_*` coroutines of
`ScreenplayFormattingAgent.process`: `None` when the provider is not
configured, the formatted text on success, and `None` again when
`_run_with_retries` exhausted its attempts and raised (the coroutine
catches the exception and logs it). -/
def providerCall (max_retries : Nat) (retry_delay : ℚ)
    (llm : Option (String → Nat → Except String String)) (prompt : String) :
    Option String :=
  match llm with
  | none => none
  | some f =>
      match (runWithRetries max_retries retry_delay (f prompt)).1 with
      | Except.ok v => some v
      | Except.error _ => none

/-- `ScreenplayFormattingAgent.process`: the three provider calls run
concurrently under `asyncio.gather`; each is isolated in its own coroutine,
so the result dictionary is the pointwise outcome of the three
`providerCall`s on the shared prompt. -/
def formattingProcess (max_retries : Nat) (retry_delay : ℚ)
    (llms : FormatterLLMs) (script_text : String) : FormatterResults :=
  let prompt := screenplayFormatPrompt script_text
  { openai_screenplay := providerCall max_retries retry_delay llms.openai prompt
    claude_screenplay := providerCall max_retries retry_delay llms.claude prompt
    gemini_screenplay := providerCall max_retries retry_delay llms.gemini prompt }

/-! ### src/agents/screenplay/screenplay_merger_agent.py -/

/-- One entry of the `screenplay_versions` argument of
`ScreenplayMergerAgent.process`: the dictionary keys the agent reads.
`v.get("success")` truthiness is carried as a `Bool`; `content` and
`provider` may be absent (`none`). -/
structure ScreenplayVersion where
  provider : Option String
  content : Option String
  success : Bool
deriving Repr, DecidableEq

/-- Python truthiness of `v.get("content")`: present and non-empty. -/
def contentTruthy (v : ScreenplayVersion) : Bool :=
  match v.content with
  | some c => c ≠ ""
  | none => false

/-- `v.get("content", "")`. -/
def contentOrEmpty (v : ScreenplayVersion) : String :=
  v.content.getD ""

/-- Python `sanitize_prompt` from `core/utils.py`: strip and collapse
whitespace runs to single spaces, truncate at `max_length` dropping the
trailing partial word (`rsplit` at the last space) and appending an
ellipsis, then drop every character outside
`[\w\s\-.,!?:;()\x27"]` (ASCII `\w`). -/
def sanitizePrompt (prompt : String) (max_length : Nat) : String :=
  let collapsed := String.intercalate " "
    (((splitCharsBy pyIsSpace (pyStrip prompt).data).map List.asString).filter
      (fun w => w ≠ ""))
  let truncated :=
    if collapsed.length > max_length then
      let t := collapsed.take max_length
      let beforeLastSpace :=
        match (t.data.reverse.dropWhile (fun c => c ≠ ' ')) with
        | ' ' :: rest => rest.reverse.asString
        | _ => t
      beforeLastSpace ++ "..."
    else collapsed
  let keepChar : Char → Bool := fun c =>
    c.isAlphanum || c = '_' || pyIsSpace c ||
      c = '-' || c = '.' || c = ',' || c = '!' || c = '?' || c = ':' ||
      c = ';' || c = '(' || c = ')' || c = '\x27' || c = '"'
  (truncated.data.filter keepChar).asString

/-- The `versions_text` accumulator of `_consensus_merge`: a header line and
the content for each version, one-based numbering, provider name
upper-cased with `unknown` as default. -/
def buildVersionsText (versions : List ScreenplayVersion) : String :=
  versions.enum.foldl
    (fun acc iv =>
      acc ++ "\n\nVERSION " ++ toString (iv.1 + 1) ++ " (" ++
        pyUpper (iv.2.provider.getD "unknown") ++ "):\n" ++
        contentOrEmpty iv.2)
    ""

/-- `MERGE_SCREENPLAY_PROMPT` with its two placeholders substituted. -/
def mergePrompt (original_script versions_content : String) : String :=
  "\nYou are an expert screenplay editor tasked with creating the " ++
  "definitive version from multiple AI-generated screenplays.\n\n" ++
  "**MERGE OBJECTIVES:**\n" ++
  "1. Preserve ALL original dialogue and story elements\n" ++
  "2. Select the best formatting from available versions\n" ++
  "3. Ensure consistent character development and voice\n" ++
  "4. Choose the most cinematic and effective scene descriptions\n" ++
  "5. Resolve formatting conflicts intelligently\n" ++
  "6. Maintain proper screenplay structure throughout\n" ++
  "7. Ensure smooth narrative flow and pacing\n\n" ++
  "**QUALITY CRITERIA:**\n" ++
  "- Industry-standard formatting (scene headings, character names, " ++
  "dialogue)\n" ++
  "- Consistent character voice and development\n" ++
  "- Clear, visual action lines\n" ++
  "- Proper pacing and scene transitions\n" ++
  "- Preservation of original story intent and tone\n\n" ++
  "**SOURCE MATERIAL:**\nOriginal Script: " ++ original_script ++ "\n\n" ++
  "**VERSIONS TO MERGE:**\n" ++ versions_content ++ "\n\n" ++
  "**INSTRUCTIONS:**\n" ++
  "Analyze all versions and create the highest quality final screenplay " ++
  "that combines the best elements while maintaining perfect formatting " ++
  "and storytelling flow. Return only the complete, final screenplay " ++
  "with no additional commentary.\n"

/-- `ScreenplayMergerAgent._consensus_merge`.  `llm` is the resolved
`self.llms.get("openai") or self.llms.get("claude")`, modelled as an
optional total oracle from the prompt to the response text (a total oracle
makes `_run_with_retries` return its first attempt, and absorbs the
`result.content` attribute read). -/
def consensusMerge (llm : Option (String → String)) (original_script : String)
    (versions : List ScreenplayVersion) : Except String String :=
  match llm with
  | none => Except.error "No LLM available for consensus merge"
  | some f =>
      let prompt := mergePrompt (sanitizePrompt original_script 2000)
        ((buildVersionsText versions).take 8000)
      Except.ok (f prompt)

/-- Character class `[A-Z\s]` of the merger-agent name pattern. -/
def qsCharClass (c : Char) : Bool :=
  c.isUpper || pyIsSpace c

/-- `re.findall` scan of the merger-agent pattern `^\s*([A-Z][A-Z\s]+)\s*$`
(MULTILINE).  Because `\s` includes the newline, both the leading `\s*` and
the group cross line boundaries; a match anchors at a line start, skips
whitespace to an uppercase letter, takes the maximal run of
`[A-Z\s]` from there and ends (greedily) at the last newline inside that
run, or at the end of the text when the run reaches it; the group needs at
least two characters.  On failure the scan moves to the next line start; a
match resumes the scan right after the newline it stopped at.  `fuel` only
bounds the recursion; every step consumes at least one character. -/
def qsCharScan (fuel : Nat) (cs : List Char) : List String :=
  match fuel with
  | 0 => []
  | fuel + 1 =>
      let skipLine : List String :=
        match cs.dropWhile (fun d => d ≠ '\n') with
        | _ :: r => qsCharScan fuel r
        | [] => []
      let afterWs := cs.dropWhile pyIsSpace
      match afterWs with
      | [] => []
      | c :: _ =>
          if ¬ c.isUpper then skipLine
          else
            let run := afterWs.takeWhile qsCharClass
            if run.length = afterWs.length then
              if run.length ≥ 2 then [run.asString] else skipLine
            else
              match run.reverse.dropWhile (fun d => d ≠ '\n') with
              | '\n' :: revGroup =>
                  let group := revGroup.reverse
                  if group.length ≥ 2 then
                    group.asString ::
                      qsCharScan fuel (afterWs.drop (group.length + 1))
                  else skipLine
              | _ => skipLine

/-- The list of groups found by the merger-agent character-name pattern. -/
def qsCharacterNames (screenplay : String) : List String :=
  qsCharScan (screenplay.data.length + 1) screenplay.data

/-- One line matched by the merger-agent dialogue pattern
`^\s*[a-z].*[.!?]\s*$` (MULTILINE, IGNORECASE): first non-blank character a
letter, last non-blank character one of `.!?`, at least two characters
between them inclusively. -/
def qsDialogueLine (line : String) : Bool :=
  let t := line.data.dropWhile pyIsSpace
  match t with
  | [] => false
  | c :: _ =>
      if ¬ c.isAlpha then false
      else
        match t.reverse.dropWhile pyIsSpace with
        | [] => false
        | p :: rest =>
            (p = '.' || p = '!' || p = '?') && rest.length ≥ 1

/-- Does the character list start with the given literal? -/
def charsStartWith (cs : List Char) (p : String) : Bool :=
  cs.take p.data.length = p.data

/-- `re.findall` count of
`(FADE IN:|FADE OUT:|CUT TO:|DISSOLVE TO:)` over the whole text: scan left
to right, at each position try the alternatives in order, jump over a
match.  `fuel` only bounds the recursion; each step consumes at least one
character. -/
def countTransitions (fuel : Nat) (cs : List Char) : Nat :=
  match fuel with
  | 0 => 0
  | fuel + 1 =>
      match cs with
      | [] => 0
      | _ :: rest =>
          if charsStartWith cs "FADE IN:" then
            1 + countTransitions fuel (cs.drop 8)
          else if charsStartWith cs "FADE OUT:" then
            1 + countTransitions fuel (cs.drop 9)
          else if charsStartWith cs "CUT TO:" then
            1 + countTransitions fuel (cs.drop 7)
          else if charsStartWith cs "DISSOLVE TO:" then
            1 + countTransitions fuel (cs.drop 12)
          else countTransitions fuel rest

/-- `ScreenplayMergerAgent._calculate_quality_score`: a pure rubric over the
text, each sub-score capped, total capped at 100.  Exact rationals model the
Python floats (`0.5` is `1/2`). -/
def calculateQualityScore (screenplay : String) : ℚ :=
  let lines := splitLines screenplay
  let sceneScore : ℚ :=
    if lines.any (fun l => strStartsWith l "INT." || strStartsWith l "EXT.") then
      20
    else 0
  let characterScore : ℚ :=
    pyMin (((dedupKeepFirst (qsCharacterNames screenplay)).length : ℚ) * 5) 30
  let dialogueScore : ℚ :=
    pyMin (((lines.filter qsDialogueLine).length : ℚ) * (1 / 2)) 25
  let transScore : ℚ :=
    pyMin ((countTransitions (screenplay.data.length + 1) screenplay.data : ℚ)
      * 2) 10
  let lengthScore : ℚ := pyMin ((screenplay.length : ℚ) / 100) 15
  pyMin (sceneScore + characterScore + dialogueScore + transScore + lengthScore)
    100

/-- `ScreenplayMergerAgent._quality_score_merge`: the first version whose
quality score is strictly greater than every earlier one wins; the fallback
for an empty input is unreachable behind the process guards. -/
def qualityScoreMerge (versions : List ScreenplayVersion) : String :=
  let pick := versions.foldl
    (fun (acc : Option ScreenplayVersion × ℚ) v =>
      let score := calculateQualityScore (contentOrEmpty v)
      if acc.2 < score then (some v, score) else acc)
    (none, -1)
  match pick.1 with
  | some best => contentOrEmpty best
  | none =>
      match versions with
      | [] => ""
      | v :: _ => contentOrEmpty v

/-- Scene count used by `_best_elements_merge`
(`re.findall(r"^(INT\.|EXT\.).*$", ..., re.MULTILINE)`). -/
def countSceneLinesAgent (content : String) : Nat :=
  ((splitLines content).filter
    (fun l => strStartsWith l "INT." || strStartsWith l "EXT.")).length

/-- `ScreenplayMergerAgent._best_elements_merge`: pick the version with the
most scene heading lines; `list.index(max(...))` takes the first maximum. -/
def bestElementsMerge (versions : List ScreenplayVersion) : String :=
  let contents := versions.map contentOrEmpty
  let counts := contents.map countSceneLinesAgent
  let maxCount := counts.foldl max 0
  let best_idx := counts.findIdx (fun n => n = maxCount)
  contents.getD best_idx ""

/-- The response dictionary of `ScreenplayMergerAgent.process`.  The
wall-clock and identifier fields (`processing_id`, `processing_time`,
`timestamp`) are ambient effects and are omitted. -/
structure MergeResponse where
  content : String
  merge_strategy : String
  versions_merged : Nat
  version_providers : List (Option String)
  validation_issues : List String
  quality_score : ℚ
  success : Bool
deriving Repr, DecidableEq

/-- `ScreenplayMergerAgent.process`: guard on at least two versions, filter
to the successful non-empty candidates, guard on at least one survivor,
apply the strategy (`consensus` is also the fallback for unknown names),
validate the merged text and flag `success` accordingly.  Failures raise
`AgentProcessingError`; the outer handler re-raises them wrapped in a
`Screenplay merge failed` message, modelled as `Except.error` of the inner
message. -/
def mergerProcess (llm : Option (String → String)) (original_script : String)
    (versions : List ScreenplayVersion) (merge_strategy : String) :
    Except String MergeResponse :=
  if versions.length < 2 then
    Except.error "At least 2 screenplay versions required"
  else
    let valid := versions.filter (fun v => v.success && contentTruthy v)
    if valid.isEmpty then
      Except.error "No valid screenplay versions to merge"
    else
      let mergedE :=
        if merge_strategy = "consensus" then
          consensusMerge llm original_script valid
        else if merge_strategy = "quality_score" then
          Except.ok (qualityScoreMerge valid)
        else if merge_strategy = "best_elements" then
          Except.ok (bestElementsMerge valid)
        else consensusMerge llm original_script valid
      match mergedE with
      | Except.error e => Except.error e
      | Except.ok merged =>
          let issues := validateScreenplayFormat merged
          Except.ok
            { content := merged
              merge_strategy := merge_strategy
              versions_merged := valid.length
              version_providers := valid.map (fun v => v.provider)
              validation_issues := issues
              quality_score := calculateQualityScore merged
              success := issues.isEmpty }

/-! ### Derived notions and spec-side definitions -/

/-- The pending requests of one `(project_id, stage)` pair in the
database. -/
def pendingRequestsFor (s : ServiceState) (project : String)
    (stage : WorkflowStage) : List ApprovalRecord :=
  s.db.filter (fun r =>
    r.project_id = project ∧ r.stage = stage ∧
      r.status = ApprovalStatus.pending)

/-- Spec-side definition, following the wording of the spec: the priority
score of a stored request as recomputed from the clock at the moment of a
read.  Used to compare the implemented read order with the read-time
order the spec asks for. -/
def specReadTimeScore (s : ServiceState) (now : Time) (id : String) : ℚ :=
  match findRecord s.db id with
  | some r => calculatePriorityScore now r.priority r.requested_at r.due_date
  | none => 0

/-- Spec-side definition, following the wording of the spec: the
`age_bonus` grows linearly with hours since creation (at the rate of 10
points per hour used by the implementation) and is capped at 500. -/
def specAgeBonus (hours_since_creation : ℚ) : ℚ :=
  min (hours_since_creation * 10) 500

/-- Spec-side definition, following the wording of the spec: the
`due_bonus` is the highest fixed bonus when overdue, a second-tier bonus
when due within 24 hours, a third-tier bonus when due within 72 hours, and
zero otherwise, including when there is no due date. -/
def specDueBonus (now : Time) (due_date : Option Time) : ℚ :=
  match due_date with
  | none => 0
  | some due =>
      if due < now then 1000
      else if due - now < 24 * 3600 then 500
      else if due - now < 72 * 3600 then 200
      else 0

/-- Spec-side definition, following the wording of the spec: the priority
score formula `priority * 1000 + age_bonus + due_bonus`. -/
def specPriorityScore (priority : Nat) (age_bonus due_bonus : ℚ) : ℚ :=
  (priority : ℚ) * 1000 + age_bonus + due_bonus

/-- Spec-side definition, following the wording of the claim on retries:
the linear delay schedule `retry_delay * attempt` between the
`max_retries` attempts. -/
def specLinearDelays (retry_delay : ℚ) (max_retries : Nat) : List ℚ :=
  (List.range (max_retries - 1)).map (fun i => retry_delay * ((i : ℚ) + 1))

/-! ### Concrete scenarios used by the theorems -/

/-- Request parameters with the fields the scenarios vary. -/
def mkRequestParams (proj : String) (prio : Nat) (due : Option Time) :
    CreateParams :=
  { project_id := proj
    stage := WorkflowStage.screenplay_generation
    approval_type := ApprovalType.screenplay
    entity_id := "e"
    title := "t"
    description := "d"
    approval_data := "data"
    options := "opts"
    assigned_to := none
    priority := prio
    due_date := due }

/-- One request `a` enqueued at time 0. -/
def stateOneA : ServiceState :=
  (createApprovalRequest ServiceState.empty "a" 0 (mkRequestParams "p" 2 none)).1

/-- A second request `b` for the same `(project_id, stage)` pair, enqueued
while `a` is still pending. -/
def stateTwoAB : ServiceState :=
  (createApprovalRequest stateOneA "b" 0 (mkRequestParams "p" 2 none)).1

/-- The outcome of responding to `a` (approval by alice at time 100). -/
def resolvedOutcome : Except String (ServiceState × SubmitResponse) :=
  submitApprovalResponse stateTwoAB "a" "alice" true none none none 100

/-- The state after the response to `a`. -/
def stateResolvedA : ServiceState :=
  match resolvedOutcome with
  | Except.ok pr => pr.1
  | Except.error _ => stateTwoAB

/-- The response dictionary returned for `a`. -/
def responseA : SubmitResponse :=
  match resolvedOutcome with
  | Except.ok pr => pr.2
  | Except.error _ =>
      { approval_id := "", status := ApprovalStatus.pending, approved := false,
        response_time := 0, processed_at := 0 }

/-- Three requests with priorities 1, 5, 3 enqueued at the same instant
with no due dates. -/
def priorityState : ServiceState :=
  (createApprovalRequest
    (createApprovalRequest
      (createApprovalRequest ServiceState.empty
        "a" 0 (mkRequestParams "p" 1 none)).1
      "b" 0 (mkRequestParams "p" 5 none)).1
    "c" 0 (mkRequestParams "p" 3 none)).1

/-- Request `a` (priority 1, due at 51 hours) enqueued at time 0, and
request `b` (priority 2, no due date) enqueued at 50 hours: the stored
scores are 1200 and 2000, while at a read 52 hours in, `a` is overdue and a
read-time recomputation would put it first. -/
def staleOrderState : ServiceState :=
  (createApprovalRequest
    (createApprovalRequest ServiceState.empty
      "a" 0 (mkRequestParams "p" 1 (some 183600))).1
    "b" 180000 (mkRequestParams "p" 2 none)).1

/-- A successful candidate whose content is a bare scene heading (too short
to pass structural validation). -/
def shortSceneVersion : ScreenplayVersion :=
  { provider := some "openai", content := some "INT. X", success := true }

/-- A failed candidate. -/
def failedVersion : ScreenplayVersion :=
  { provider := some "claude", content := some "", success := false }

/-- A provider call that fails on every attempt. -/
def alwaysFailingCall : Nat → Except String String :=
  fun _ => Except.error "boom"

/-- A merge over one surviving candidate whose content fails structural
validation, using the pure `best_elements` strategy (the identity oracle
stands for the unused LLM). -/
def bestElementsOutcome : Except String MergeResponse :=
  mergerProcess (some (fun s => s)) "orig" [shortSceneVersion, failedVersion]
    "best_elements"

/-- The response of `bestElementsOutcome` (the error fallback is not
reached). -/
def bestElementsResult : MergeResponse :=
  match bestElementsOutcome with
  | Except.ok r => r
  | Except.error _ =>
      { content := "", merge_strategy := "", versions_merged := 0,
        version_providers := [], validation_issues := [], quality_score := 0,
        success := true }

/-- The row of request `a` after its approval, as stored in
`stateResolvedA`. -/
def resolvedRecordA : ApprovalRecord :=
  { newApprovalRecord "a" 0 (mkRequestParams "p" 2 none) with
    status := responseStatus true none
    approved_at := some 100
    approved_by := some "alice"
    selected_option := none
    feedback := none
    revision_notes := none
    response_time_seconds := some ⌊(100 : ℚ) - 0⌋ }

/-! ## Theorems -/

/-- Score of a fresh priority-1 request with no due date. -/
theorem score_p1_fresh : calculatePriorityScore 0 1 0 none = 1000 := by
  norm_num [calculatePriorityScore, pyMin]

/-- Score of a fresh priority-5 request with no due date. -/
theorem score_p5_fresh : calculatePriorityScore 0 5 0 none = 5000 := by
  norm_num [calculatePriorityScore, pyMin]

/-- Score of a fresh priority-3 request with no due date. -/
theorem score_p3_fresh : calculatePriorityScore 0 3 0 none = 3000 := by
  norm_num [calculatePriorityScore, pyMin]

/-- Enqueue-time score of request `a` of the stale-order scenario: due 51
hours out, so the 72-hour tier applies. -/
theorem score_a_enqueue : calculatePriorityScore 0 1 0 (some 183600) = 1200 := by
  norm_num [calculatePriorityScore, pyMin]

/-- Enqueue-time score of request `b` of the stale-order scenario. -/
theorem score_b_enqueue :
    calculatePriorityScore 180000 2 180000 none = 2000 := by
  norm_num [calculatePriorityScore, pyMin]

/-- The stored row of request `a` in the stale-order scenario. -/
theorem findRecord_stale_a : findRecord staleOrderState.db "a"
    = some (newApprovalRecord "a" 0 (mkRequestParams "p" 1 (some 183600))) := by
  decide

/-- The stored row of request `b` in the stale-order scenario. -/
theorem findRecord_stale_b : findRecord staleOrderState.db "b"
    = some (newApprovalRecord "b" 180000 (mkRequestParams "p" 2 none)) := by
  decide

/-- C1 counterexample: starting from the empty state, enqueuing request `a`
and then request `b` for the same `(project_id, stage)` pair succeeds (the
second call returns its id rather than failing) and leaves two pending
entries for the pair, the first one not superseded. -/
theorem C1_counterexample_two_pending :
    (createApprovalRequest stateOneA "b" 0 (mkRequestParams "p" 2 none)).2
        = "b" ∧
    (pendingRequestsFor stateTwoAB "p"
        WorkflowStage.screenplay_generation).length = 2 := by
  constructor
  · rfl
  · decide

/-- C1 amended: `create_approval_request` enforces no single-pending
invariant at all: for every starting state it appends one new pending row
for its `(project_id, stage)` pair, so a second enqueue while one is
pending always yields one more pending entry for that pair. -/
theorem C1_enqueue_always_appends_pending (s : ServiceState)
    (freshId : String) (now : Time) (p : CreateParams) :
    ((createApprovalRequest s freshId now p).1).db
        = s.db ++ [newApprovalRecord freshId now p] ∧
    (newApprovalRecord freshId now p).status = ApprovalStatus.pending ∧
    pendingRequestsFor (createApprovalRequest s freshId now p).1
        p.project_id p.stage
      = pendingRequestsFor s p.project_id p.stage
          ++ [newApprovalRecord freshId now p] := by
  refine ⟨rfl, rfl, ?_⟩
  simp [pendingRequestsFor, createApprovalRequest, List.filter_append,
    newApprovalRecord]

/-- C3: the claim that no queue operation ever changes a terminal status is
contradicted by `cancel_approval`, which updates the row with no status
guard: on the reachable state where request `a` was already approved,
cancelling `a` flips its status from `approved` to `rejected` (and reports
success), mutating the request a second time. -/
theorem C3_cancel_overwrites_terminal_status :
    (findRecord stateResolvedA.db "a").map (fun r => r.status)
        = some ApprovalStatus.approved ∧
    (findRecord ((cancelApproval stateResolvedA "a" "admin" "stale" 300).1).db
        "a").map (fun r => r.status) = some ApprovalStatus.rejected ∧
    (cancelApproval stateResolvedA "a" "admin" "stale" 300).2 = true := by
  refine ⟨by decide, by decide, rfl⟩

/-- C4: the computed priority score equals the spec formula
`priority * 1000 + age_bonus + due_bonus` with the linear capped age bonus
and the tiered due bonus (overdue 1000, within 24h 500, within 72h 200,
otherwise 0); and for three pending requests with priorities [1,5,3],
equal age and no due dates, the pending list comes back in order
[5,3,1]. -/
theorem C4_priority_score_formula_and_ordering :
    (∀ (now created : Time) (priority : Nat) (due_date : Option Time),
      calculatePriorityScore now priority created due_date =
        specPriorityScore priority (specAgeBonus ((now - created) / 3600))
          (specDueBonus now due_date)) ∧
    (getPendingApprovals priorityState none none none 20 0).map
        (fun v => v.priority) = [5, 3, 1] := by
  constructor
  · intro now created priority due_date
    cases due_date with
    | none =>
        simp [calculatePriorityScore, specPriorityScore, specAgeBonus,
          specDueBonus, pyMin, min_def]
    | some d =>
        simp only [calculatePriorityScore, specPriorityScore, specAgeBonus,
          specDueBonus, pyMin, min_def]
        split_ifs <;> first | rfl | linarith
  · simp only [priorityState, createApprovalRequest, mkRequestParams,
      newQueueItem, newApprovalRecord, zadd, sadd, ServiceState.empty,
      score_p1_fresh, score_p5_fresh, score_p3_fresh]
    decide

/-- C5 counterexample: on the reachable state `staleOrderState`, the read
at 52 hours returns `b` before `a`, while the priority scores recomputed
from the clock at that read order `a` strictly above `b`: the returned
ordering follows the scores stored at enqueue time, not scores computed at
the moment of the read. -/
theorem C5_counterexample_stale_order :
    (getPendingApprovals staleOrderState none none none 20 187200).map
        (fun v => v.id) = ["b", "a"] ∧
    specReadTimeScore staleOrderState 187200 "b"
        < specReadTimeScore staleOrderState 187200 "a" := by
  constructor
  · simp only [staleOrderState, createApprovalRequest, mkRequestParams,
      newQueueItem, newApprovalRecord, zadd, sadd, ServiceState.empty,
      score_a_enqueue, score_b_enqueue]
    decide
  · simp only [specReadTimeScore, findRecord_stale_a, findRecord_stale_b,
      newApprovalRecord, mkRequestParams]
    norm_num [calculatePriorityScore, pyMin]

/-- C5 amended: `get_pending_approvals` never consults the read-time clock
(two reads of the same state at different times return identical lists in
identical order), and the scores that do drive the ordering are the ones
computed and stored at enqueue time, as witnessed on `staleOrderState`. -/
theorem C5_read_order_is_enqueue_time (s : ServiceState)
    (u p : Option String) (ty : Option ApprovalType) (lim : Nat)
    (now now' : Time) :
    getPendingApprovals s u p ty lim now
        = getPendingApprovals s u p ty lim now' ∧
    staleOrderState.queue =
      [(newQueueItem "a" 0 (mkRequestParams "p" 1 (some 183600)), 1200),
       (newQueueItem "b" 180000 (mkRequestParams "p" 2 none), 2000)] := by
  refine ⟨rfl, ?_⟩
  simp only [staleOrderState, createApprovalRequest, mkRequestParams,
    newQueueItem, newApprovalRecord, zadd, sadd, ServiceState.empty,
    score_a_enqueue, score_b_enqueue]
  decide

/-- Evaluation shape of `ScreenplayMergerAgent.process` with an available
LLM, at least two versions and at least one valid candidate: every strategy
produces some merged text, and the response is built from it with
`success` set to the emptiness of its validation issues. -/
theorem mergerProcess_ok_shape (f : String → String) (orig : String)
    (versions : List ScreenplayVersion) (strategy : String)
    (h2 : ¬ versions.length < 2)
    (hne : (versions.filter
      (fun v => v.success && contentTruthy v)).isEmpty = false) :
    ∃ merged, mergerProcess (some f) orig versions strategy =
      Except.ok
        { content := merged
          merge_strategy := strategy
          versions_merged :=
            (versions.filter (fun v => v.success && contentTruthy v)).length
          version_providers :=
            (versions.filter (fun v => v.success && contentTruthy v)).map
              (fun v => v.provider)
          validation_issues := validateScreenplayFormat merged
          quality_score := calculateQualityScore merged
          success := (validateScreenplayFormat merged).isEmpty } := by
  unfold mergerProcess
  rw [if_neg h2, if_neg (by simp [hne])]
  rcases hEM : (if strategy = "consensus" then
      consensusMerge (some f) orig
        (versions.filter (fun v => v.success && contentTruthy v))
    else if strategy = "quality_score" then
      Except.ok (qualityScoreMerge
        (versions.filter (fun v => v.success && contentTruthy v)))
    else if strategy = "best_elements" then
      Except.ok (bestElementsMerge
        (versions.filter (fun v => v.success && contentTruthy v)))
    else
      consensusMerge (some f) orig
        (versions.filter (fun v => v.success && contentTruthy v)))
    with e | m
  · exfalso
    by_cases h1 : strategy = "consensus" <;>
      by_cases hq : strategy = "quality_score" <;>
      by_cases hb : strategy = "best_elements" <;>
      simp [h1, hq, hb, consensusMerge] at hEM
  · exact ⟨m, rfl⟩

/-- C2 counterexample: a merge call whose input holds one successful and
one failed candidate (so at least one success) returns a result flagged
`success = false`, because the merged output of the single survivor fails
structural validation — the claim that at least one success forces
`success = true` fails on the code. -/
theorem C2_counterexample_success_false :
    bestElementsOutcome = Except.ok bestElementsResult ∧
    bestElementsResult.success = false ∧
    ([shortSceneVersion, failedVersion].filter
        (fun v => v.success && contentTruthy v)).length = 1 := by
  exact ⟨rfl, by decide, by decide⟩

/-- C2 amended: with an LLM available and at least two versions supplied,
a merge call with zero successful candidates raises the no-candidates
error to the caller, and a call with at least one successful candidate
returns a `MergedResult` whose `success` flag equals the outcome of the
structural validation of the merged output (so it is not always true). -/
theorem C2_no_candidates_error_and_flag (f : String → String) (orig : String)
    (versions : List ScreenplayVersion) (strategy : String)
    (h2 : 2 ≤ versions.length) :
    (versions.filter (fun v => v.success && contentTruthy v) = [] →
      mergerProcess (some f) orig versions strategy
        = Except.error "No valid screenplay versions to merge") ∧
    (versions.filter (fun v => v.success && contentTruthy v) ≠ [] →
      ∃ r, mergerProcess (some f) orig versions strategy = Except.ok r ∧
        r.success = (validateScreenplayFormat r.content).isEmpty) := by
  have hlen : ¬ versions.length < 2 := by omega
  constructor
  · intro hempty
    unfold mergerProcess
    rw [if_neg hlen]
    simp [hempty]
  · intro hne
    obtain ⟨m, hm⟩ := mergerProcess_ok_shape f orig versions strategy hlen
      (by simp [hne])
    exact ⟨_, hm, rfl⟩

/-- C2 witness: the amended theorem applied at the concrete two-version
input with one successful candidate. -/
theorem C2_no_candidates_error_and_flag_witness :
    ∃ r, mergerProcess (some (fun s => s)) "orig"
        [shortSceneVersion, failedVersion] "best_elements" = Except.ok r ∧
      r.success = (validateScreenplayFormat r.content).isEmpty :=
  (C2_no_candidates_error_and_flag (fun s => s) "orig"
    [shortSceneVersion, failedVersion] "best_elements" (by decide)).2
    (by decide)

/-- C8 counterexample: the pipeline merge operation `merge_screenplays`
cited by the claim raises a `ValueError` when the merged output fails
structural validation (here, on empty inputs, it lacks any scene heading),
rather than returning a result flagged `success = false`. -/
theorem C8_counterexample_merge_raises :
    mergeScreenplays "" "" ""
      = Except.error "Merged screenplay missing scene headings." := by
  rfl

/-- C8 amended: `ScreenplayMergerAgent.process` indeed returns the merged
result with `success = false` exactly when validation finds issues (never
raising for that reason), but the standalone `merge_screenplays` helper of
`merger.py` instead raises a `ValueError` whenever its merged output lacks
scene headings or dialogue blocks. -/
theorem C8_flag_on_agent_raise_in_merger :
    (∀ (f : String → String) (orig : String)
        (versions : List ScreenplayVersion) (strategy : String)
        (r : MergeResponse),
      mergerProcess (some f) orig versions strategy = Except.ok r →
        r.validation_issues = validateScreenplayFormat r.content ∧
        r.success = (validateScreenplayFormat r.content).isEmpty) ∧
    (∀ a b c : String,
      extractSceneHeadingsMerger (mergedScreenplayText a b c) = [] ∨
        extractDialogueBlocks (mergedScreenplayText a b c) = [] →
      ∃ e, mergeScreenplays a b c = Except.error e) := by
  constructor
  · intro f orig versions strategy r h
    by_cases hlen : versions.length < 2
    · unfold mergerProcess at h
      rw [if_pos hlen] at h
      exact absurd h (by simp)
    · by_cases hne : (versions.filter
          (fun v => v.success && contentTruthy v)).isEmpty
      · unfold mergerProcess at h
        rw [if_neg hlen] at h
        rw [if_pos hne] at h
        exact absurd h (by simp)
      · obtain ⟨m, hm⟩ := mergerProcess_ok_shape f orig versions strategy hlen
          (by simpa using hne)
        rw [hm] at h
        obtain rfl : _ = r := (Except.ok.injEq _ _).mp h
        exact ⟨rfl, rfl⟩
  · intro a b c h
    rcases h with h | h
    · exact ⟨"Merged screenplay missing scene headings.",
        by simp [mergeScreenplays, h]⟩
    · by_cases hs : extractSceneHeadingsMerger (mergedScreenplayText a b c) = []
      · exact ⟨"Merged screenplay missing scene headings.",
          by simp [mergeScreenplays, hs]⟩
      · have hs' :
            (extractSceneHeadingsMerger (mergedScreenplayText a b c)).isEmpty
              = false := by
          simpa [List.isEmpty_iff] using hs
        exact ⟨"Merged screenplay missing dialogue blocks.",
          by simp [mergeScreenplays, hs', h]⟩

/-- C8 witness: the amended theorem applied to the concrete agent merge
with failing validation and to the concrete raising `merge_screenplays`
call on empty inputs. -/
theorem C8_flag_on_agent_raise_in_merger_witness :
    (bestElementsResult.validation_issues
        = validateScreenplayFormat bestElementsResult.content ∧
      bestElementsResult.success
        = (validateScreenplayFormat bestElementsResult.content).isEmpty) ∧
    ∃ e, mergeScreenplays "" "" "" = Except.error e :=
  ⟨C8_flag_on_agent_raise_in_merger.1 (fun s => s) "orig"
      [shortSceneVersion, failedVersion] "best_elements" bestElementsResult
      rfl,
    C8_flag_on_agent_raise_in_merger.2 "" "" "" (Or.inl (by decide))⟩

/-- Every recorded sleep of the retry loop is the constant
`retry_delay`. -/
theorem runRetriesFrom_sleeps_const (f : Nat → Except String String)
    (d : ℚ) :
    ∀ remaining attempt x, x ∈ (runRetriesFrom f d attempt remaining).2 →
      x = d := by
  intro remaining
  induction remaining with
  | zero =>
      intro attempt x hx
      simp [runRetriesFrom] at hx
  | succ n ih =>
      intro attempt x hx
      unfold runRetriesFrom at hx
      cases hf : f attempt with
      | ok v => rw [hf] at hx; simp at hx
      | error e =>
          rw [hf] at hx
          by_cases hn : n = 0
          · simp [hn] at hx
          · simp [hn] at hx
            rcases hx with rfl | hx
            · rfl
            · exact ih (attempt + 1) x hx

/-- When every attempt fails, the retry loop runs all remaining attempts,
sleeps the constant delay between consecutive ones, and re-raises the error
of the last attempt. -/
theorem runRetriesFrom_all_fail (f : Nat → Except String String) (d : ℚ)
    (e : Nat → String) (hfail : ∀ i, f i = Except.error (e i)) :
    ∀ remaining attempt, 1 ≤ remaining →
      runRetriesFrom f d attempt remaining
        = (Except.error (e (attempt + remaining - 1)),
            List.replicate (remaining - 1) d) := by
  intro remaining
  induction remaining with
  | zero => intro attempt h; omega
  | succ n ih =>
      intro attempt _
      by_cases hn : n = 0
      · subst hn
        simp [runRetriesFrom, hfail attempt]
      · have ihn := ih (attempt + 1) (by omega)
        simp only [runRetriesFrom, hfail attempt, if_neg hn, ihn]
        have h1 : attempt + 1 + n - 1 = attempt + (n + 1) - 1 := by omega
        have h2 : n + 1 - 1 = n := by omega
        have h3 : n - 1 + 1 = n := by omega
        rw [h1, h2, ← h3, List.replicate_succ, h3]

/-- C6 counterexample: with the default three attempts and `retry_delay`
2, a provider that always fails produces the sleep trace `[2, 2]` — the
constant delay — while the claimed linear schedule `retry_delay * attempt`
would be `[2, 4]`; and the exhausted loop re-raises the last error rather
than returning a failed candidate. -/
theorem C6_counterexample_constant_delay :
    runWithRetries 3 2 alwaysFailingCall = (Except.error "boom", [2, 2]) ∧
    specLinearDelays 2 3 = [2, 4] ∧
    ([2, 2] : List ℚ) ≠ [2, 4] := by
  refine ⟨rfl, ?_, by decide⟩
  norm_num [specLinearDelays, List.range_succ]

/-- C6 amended: a failing provider call is retried up to `max_retries`
total attempts with the constant delay `retry_delay` between consecutive
attempts (not `retry_delay * attempt`); when every attempt fails,
`_run_with_retries` re-raises the last error, and the fan-out caller
`ScreenplayFormattingAgent.process` catches it and records `None` for that
provider (not a candidate carrying the error), leaving the other
providers' results exactly as they would be with any other value in that
provider slot. -/
theorem C6_retry_and_isolation (max_retries : Nat) (d : ℚ)
    (f' f : Nat → Except String String) (e : Nat → String)
    (fo : String → Nat → Except String String) (err : String → Nat → String)
    (o o' c g : Option (String → Nat → Except String String))
    (script : String)
    (h1 : 1 ≤ max_retries)
    (hfail : ∀ i, f i = Except.error (e i))
    (hofail : ∀ p i, fo p i = Except.error (err p i)) :
    (∀ x ∈ (runWithRetries max_retries d f').2, x = d) ∧
    runWithRetries max_retries d f
      = (Except.error (e max_retries), List.replicate (max_retries - 1) d) ∧
    (formattingProcess max_retries d ⟨some fo, c, g⟩ script).openai_screenplay
      = none ∧
    (formattingProcess max_retries d ⟨o, c, g⟩ script).claude_screenplay
      = (formattingProcess max_retries d ⟨o', c, g⟩ script).claude_screenplay ∧
    (formattingProcess max_retries d ⟨o, c, g⟩ script).gemini_screenplay
      = (formattingProcess max_retries d ⟨o', c, g⟩ script).gemini_screenplay
    := by
  refine ⟨fun x hx => runRetriesFrom_sleeps_const f' d max_retries 1 x hx,
    ?_, ?_, rfl, rfl⟩
  · rw [runWithRetries, runRetriesFrom_all_fail f d e hfail max_retries 1 h1]
    have : 1 + max_retries - 1 = max_retries := by omega
    rw [this]
  · show (providerCall max_retries d (some fo)
      (screenplayFormatPrompt script)) = none
    rw [providerCall, runWithRetries,
      runRetriesFrom_all_fail (fo (screenplayFormatPrompt script)) d
        (err (screenplayFormatPrompt script))
        (fun i => hofail (screenplayFormatPrompt script) i) max_retries 1 h1]

/-- C6 witness: the amended theorem applied to the concrete failing
provider with three attempts and delay 2. -/
theorem C6_retry_and_isolation_witness :
    (∀ x ∈ (runWithRetries 3 2 alwaysFailingCall).2, x = (2 : ℚ)) ∧
    runWithRetries 3 2 alwaysFailingCall
      = (Except.error "boom", List.replicate 2 2) ∧
    (formattingProcess 3 2
        ⟨some (fun _ _ => Except.error "boom"), none, none⟩
        "s").openai_screenplay = none ∧
    (formattingProcess 3 2 ⟨none, none, none⟩ "s").claude_screenplay
      = (formattingProcess 3 2
          ⟨some (fun _ _ => Except.error "boom"), none, none⟩
          "s").claude_screenplay ∧
    (formattingProcess 3 2 ⟨none, none, none⟩ "s").gemini_screenplay
      = (formattingProcess 3 2
          ⟨some (fun _ _ => Except.error "boom"), none, none⟩
          "s").gemini_screenplay :=
  C6_retry_and_isolation 3 2 alwaysFailingCall alwaysFailingCall
    (fun _ => "boom") (fun _ _ => Except.error "boom") (fun _ _ => "boom")
    none (some (fun _ _ => Except.error "boom")) none none "s"
    (by decide) (fun _ => rfl) (fun _ _ => rfl)

/-- `_remove_from_queue` never touches the database table. -/
theorem removeFromQueue_db (st : ServiceState) (i : String) :
    (removeFromQueue st i).db = st.db := by
  rcases h : findRecord st.db i with _ | r
  · simp [removeFromQueue, h]
  · rcases ha : r.assigned_to with _ | u <;> simp [removeFromQueue, h, ha]

/-- `_remove_from_queue` on the pending set is the `SREM` of the id. -/
theorem removeFromQueue_pendingSet (st : ServiceState) (i : String) :
    (removeFromQueue st i).pendingSet = srem st.pendingSet i := by
  rcases h : findRecord st.db i with _ | r
  · simp [removeFromQueue, h]
  · rcases ha : r.assigned_to with _ | u <;> simp [removeFromQueue, h, ha]

/-- `_remove_from_queue` on the sorted set drops the first member with the
id. -/
theorem removeFromQueue_queue (st : ServiceState) (i : String) :
    (removeFromQueue st i).queue = removeFirstMember st.queue i := by
  rcases h : findRecord st.db i with _ | r
  · simp [removeFromQueue, h]
  · rcases ha : r.assigned_to with _ | u <;> simp [removeFromQueue, h, ha]

/-- A by-id lookup commutes with an id-preserving row update. -/
theorem findRecord_map (db : List ApprovalRecord)
    (g : ApprovalRecord → ApprovalRecord) (hg : ∀ x, (g x).id = x.id)
    (i : String) :
    findRecord (db.map g) i = (findRecord db i).map g := by
  induction db with
  | nil => rfl
  | cons x rest ih =>
      by_cases h : x.id = i
      · rw [findRecord, List.map_cons,
          List.find?_cons_of_pos _ (by simp [hg, h]), findRecord,
          List.find?_cons_of_pos _ (by simp [h])]
        rfl
      · rw [findRecord, List.map_cons,
          List.find?_cons_of_neg _ (by simp [hg, h]), findRecord,
          List.find?_cons_of_neg _ (by simp [h])]
        exact ih

/-- An id is never in the pending set after its `SREM`. -/
theorem srem_not_mem (l : List String) (a : String) : a ∉ srem l a := by
  simp [srem]

/-- Dropping the first member with an id empties the id's members when the
queue held at most one. -/
theorem removeFirstMember_filter_nil (q : List (QueueItem × ℚ)) (i : String)
    (hq : (q.filter (fun e => e.1.approval_id = i)).length ≤ 1) :
    (removeFirstMember q i).filter (fun e => e.1.approval_id = i) = [] := by
  induction q with
  | nil => rfl
  | cons e rest ih =>
      by_cases h : e.1.approval_id = i
      · rw [removeFirstMember, if_pos h]
        rw [List.filter_cons_of_pos (by simp [h])] at hq
        simp only [List.length_cons] at hq
        have : (rest.filter (fun e => e.1.approval_id = i)).length = 0 := by
          omega
        exact List.eq_nil_of_length_eq_zero this
      · rw [removeFirstMember, if_neg h,
          List.filter_cons_of_neg (by simp [h])]
        rw [List.filter_cons_of_neg (by simp [h])] at hq
        exact ih hq

/-- Shape of a successful `submit_approval_response`: the returned state
updates the rows with the id in place, drops the id from the pending set
and from the queue, and the response carries the new status, the response
time and the processing instant. -/
theorem submit_pending_ok (s : ServiceState) (approval_id user : String)
    (approved : Bool) (sel fb notes : Option String) (now : Time)
    (r : ApprovalRecord)
    (hfind : findRecord s.db approval_id = some r)
    (hp : r.status = ApprovalStatus.pending) :
    ∃ s', submitApprovalResponse s approval_id user approved sel fb notes now
        = Except.ok (s',
          { approval_id := approval_id
            status := responseStatus approved notes
            approved := approved
            response_time := now - r.requested_at
            processed_at := now }) ∧
      s'.db = s.db.map (fun x =>
        if x.id = approval_id then
          { x with
            status := responseStatus approved notes
            approved_at := some now
            approved_by := some user
            selected_option := sel
            feedback := fb
            revision_notes := notes
            response_time_seconds := some ⌊now - r.requested_at⌋ }
        else x) ∧
      s'.pendingSet = srem s.pendingSet approval_id ∧
      s'.queue = removeFirstMember s.queue approval_id := by
  apply Exists.intro
  refine ⟨?_, ?_, ?_, ?_⟩
  · simp only [submitApprovalResponse, hfind]
    rw [if_neg (by simp [hp])]
  · show (removeFromQueue _ approval_id).db = _
    rw [removeFromQueue_db]
  · show (removeFromQueue _ approval_id).pendingSet = _
    rw [removeFromQueue_pendingSet]
  · show (removeFromQueue _ approval_id).queue = _
    rw [removeFromQueue_queue]

/-- C7: `submit_approval_response` on a non-pending request fails with the
already-processed error (the transaction mutates nothing); on a pending
request it succeeds, records the resolution instant, the resolver and the
response time `resolved_at - requested_at` on the retained row, and removes
the id from the pending working set and from the queue. -/
theorem C7_submit_only_pending (s : ServiceState) (approval_id user : String)
    (approved : Bool) (sel fb notes : Option String) (now : Time)
    (r : ApprovalRecord)
    (hfind : findRecord s.db approval_id = some r) :
    (r.status ≠ ApprovalStatus.pending →
      submitApprovalResponse s approval_id user approved sel fb notes now
        = Except.error "Approval request already processed") ∧
    (r.status = ApprovalStatus.pending →
      ∃ s', submitApprovalResponse s approval_id user approved sel fb notes
          now = Except.ok (s',
            { approval_id := approval_id
              status := responseStatus approved notes
              approved := approved
              response_time := now - r.requested_at
              processed_at := now }) ∧
        findRecord s'.db approval_id = some
          { r with
            status := responseStatus approved notes
            approved_at := some now
            approved_by := some user
            selected_option := sel
            feedback := fb
            revision_notes := notes
            response_time_seconds := some ⌊now - r.requested_at⌋ } ∧
        approval_id ∉ s'.pendingSet ∧
        ((s.queue.filter
            (fun e => e.1.approval_id = approval_id)).length ≤ 1 →
          s'.queue.filter (fun e => e.1.approval_id = approval_id) = [])) := by
  constructor
  · intro hnp
    simp only [submitApprovalResponse, hfind]
    rw [if_pos hnp]
  · intro hp
    obtain ⟨s', hok, hdb, hpend, hqueue⟩ := submit_pending_ok s approval_id
      user approved sel fb notes now r hfind hp
    have hrid : r.id = approval_id := by
      have := List.find?_some hfind
      simpa using this
    refine ⟨s', hok, ?_, ?_, ?_⟩
    · rw [hdb, findRecord_map _ _ (fun x => by split <;> rfl), hfind]
      simp [hrid]
    · rw [hpend]
      exact srem_not_mem _ _
    · intro hq
      rw [hqueue]
      exact removeFirstMember_filter_nil _ _ hq

/-- C7 witness: the theorem applied to the reachable two-request state, on
the pending request `a`. -/
theorem C7_submit_only_pending_witness :
    ∃ s', submitApprovalResponse stateTwoAB "a" "alice" true none none none
        100 = Except.ok (s',
          { approval_id := "a"
            status := responseStatus true none
            approved := true
            response_time :=
              100 - (newApprovalRecord "a" 0
                (mkRequestParams "p" 2 none)).requested_at
            processed_at := 100 }) ∧
      findRecord s'.db "a" = some
        { newApprovalRecord "a" 0 (mkRequestParams "p" 2 none) with
          status := responseStatus true none
          approved_at := some 100
          approved_by := some "alice"
          selected_option := none
          feedback := none
          revision_notes := none
          response_time_seconds :=
            some ⌊(100 : ℚ) - (newApprovalRecord "a" 0
              (mkRequestParams "p" 2 none)).requested_at⌋ } ∧
      "a" ∉ s'.pendingSet ∧
      ((stateTwoAB.queue.filter
          (fun e => e.1.approval_id = "a")).length ≤ 1 →
        s'.queue.filter (fun e => e.1.approval_id = "a") = []) :=
  (C7_submit_only_pending stateTwoAB "a" "alice" true none none none 100
    (newApprovalRecord "a" 0 (mkRequestParams "p" 2 none)) (by decide)).2 rfl

/-- C10: on a pending request, the resulting status is `approved` whenever
`approved` is true (revision notes cannot downgrade an approval),
`revision_requested` exactly when `approved` is false and notes are
present, and `rejected` when `approved` is false and notes are absent; the
stored row gets the same status as the response reports. -/
theorem C10_response_status_mapping (s : ServiceState)
    (approval_id user : String) (approved : Bool)
    (sel fb notes : Option String) (now : Time) (r : ApprovalRecord)
    (hfind : findRecord s.db approval_id = some r)
    (hp : r.status = ApprovalStatus.pending) :
    ∃ s' resp,
      submitApprovalResponse s approval_id user approved sel fb notes now
        = Except.ok (s', resp) ∧
      resp.status = (if approved then ApprovalStatus.approved
        else if notes.isSome then ApprovalStatus.revision_requested
        else ApprovalStatus.rejected) ∧
      (findRecord s'.db approval_id).map (fun x => x.status)
        = some resp.status ∧
      (resp.status = ApprovalStatus.revision_requested → notes.isSome) ∧
      (approved = true → resp.status = ApprovalStatus.approved) := by
  obtain ⟨s', hok, hdb, hpend, hqueue⟩ := submit_pending_ok s approval_id
    user approved sel fb notes now r hfind hp
  have hrid : r.id = approval_id := by
    have := List.find?_some hfind
    simpa using this
  refine ⟨s', _, hok, rfl, ?_, ?_, ?_⟩
  · rw [hdb, findRecord_map _ _ (fun x => by split <;> rfl), hfind]
    simp [hrid]
  · intro h
    by_cases ha : approved
    · simp [responseStatus, ha] at h
    · rcases hn : notes with _ | v
      · simp [responseStatus, ha, hn] at h
      · rfl
  · intro ha
    simp [responseStatus, ha]

/-- C10 witness: the theorem applied to the reachable two-request state
with a revision response carrying notes. -/
theorem C10_response_status_mapping_witness :
    ∃ s' resp,
      submitApprovalResponse stateTwoAB "a" "alice" false none none
          (some "fix act 2") 100 = Except.ok (s', resp) ∧
      resp.status = (if false then ApprovalStatus.approved
        else if (some "fix act 2").isSome then
          ApprovalStatus.revision_requested
        else ApprovalStatus.rejected) ∧
      (findRecord s'.db "a").map (fun x => x.status) = some resp.status ∧
      (resp.status = ApprovalStatus.revision_requested →
        (some "fix act 2").isSome) ∧
      (false = true → resp.status = ApprovalStatus.approved) :=
  C10_response_status_mapping stateTwoAB "a" "alice" false none none
    (some "fix act 2") 100 (newApprovalRecord "a" 0 (mkRequestParams "p" 2
      none)) (by decide) rfl

/-- The expiry sweep body updates the table rows of one id in place. -/
theorem expireOne_db (now : Time) (st : ServiceState) (j : String) :
    (expireOne now st j).db = st.db.map (fun x =>
      if x.id = j then
        { x with
          status := ApprovalStatus.rejected
          approved_at := some now
          feedback := some "Automatically rejected due to expiration" }
      else x) := by
  show (removeFromQueue _ j).db = _
  rw [removeFromQueue_db]

/-- A row whose id is swept by none of the given ids survives the sweep
fold unchanged. -/
theorem foldl_expire_preserves (now : Time) (i : String)
    (r : ApprovalRecord) :
    ∀ (ids : List String) (st : ServiceState), (∀ j ∈ ids, j ≠ i) →
      findRecord st.db i = some r →
      findRecord ((ids.foldl (expireOne now) st)).db i = some r := by
  intro ids
  induction ids with
  | nil => intro st _ h; simpa using h
  | cons j rest ih =>
      intro st hj hfind
      rw [List.foldl_cons]
      apply ih _ (fun x hx => hj x (List.mem_cons_of_mem _ hx))
      rw [expireOne_db, findRecord_map _ _ (fun x => by split <;> rfl), hfind]
      have hrid : r.id = i := by simpa using List.find?_some hfind
      have hji : j ≠ i := hj j (List.mem_cons_self j rest)
      simp [hrid, Ne.symm hji]

/-- The ids selected by the sweep all differ from the id of a stored row
that is not expired, when ids are unique. -/
theorem expired_ids_ne (s : ServiceState) (now : Time) (i : String)
    (r : ApprovalRecord)
    (hnodup : (s.db.map (fun x => x.id)).Nodup)
    (hfind : findRecord s.db i = some r)
    (hexp : isExpired r now = false) :
    ∀ j ∈ (s.db.filter (fun x => isExpired x now)).map (fun x => x.id),
      j ≠ i := by
  intro j hj hji
  subst hji
  obtain ⟨x, hx, hxid⟩ := List.mem_map.mp hj
  obtain ⟨hxdb, hxexp⟩ := List.mem_filter.mp hx
  have hrdb : r ∈ s.db := List.mem_of_find?_eq_some hfind
  have hrid : r.id = j := by simpa using List.find?_some hfind
  have hxr : x = r :=
    List.inj_on_of_nodup_map hnodup hxdb hrdb (by rw [hxid, hrid])
  rw [hxr, hexp] at hxexp
  exact Bool.noConfusion hxexp

/-- One run of the expiry sweep leaves every stored non-expired row
untouched (given unique ids). -/
theorem cleanup_preserves_record (s : ServiceState) (now : Time)
    (i : String) (r : ApprovalRecord)
    (hnodup : (s.db.map (fun x => x.id)).Nodup)
    (hfind : findRecord s.db i = some r)
    (hexp : isExpired r now = false) :
    findRecord (cleanupExpiredApprovals s now).db i = some r := by
  unfold cleanupExpiredApprovals
  exact foldl_expire_preserves now i r _ s
    (expired_ids_ne s now i r hnodup hfind hexp) hfind

/-- The sweep fold preserves the sequence of row ids. -/
theorem foldl_expire_ids (now : Time) :
    ∀ (ids : List String) (st : ServiceState),
      ((ids.foldl (expireOne now) st).db).map (fun x => x.id)
        = st.db.map (fun x => x.id) := by
  intro ids
  induction ids with
  | nil => intro st; rfl
  | cons j rest ih =>
      intro st
      rw [List.foldl_cons, ih, expireOne_db, List.map_map]
      have : ((fun x : ApprovalRecord => x.id) ∘ (fun x =>
          if x.id = j then
            { x with
              status := ApprovalStatus.rejected
              approved_at := some now
              feedback := some "Automatically rejected due to expiration" }
          else x)) = (fun x : ApprovalRecord => x.id) := by
        funext x
        by_cases h : x.id = j <;> simp [h]
      rw [this]

/-- The expiry sweep preserves the sequence of row ids. -/
theorem cleanup_ids (s : ServiceState) (now : Time) :
    ((cleanupExpiredApprovals s now).db).map (fun x => x.id)
      = s.db.map (fun x => x.id) := by
  unfold cleanupExpiredApprovals
  exact foldl_expire_ids now _ s

/-- Any number of expiry sweeps leaves a stored non-expired row untouched
(given unique ids). -/
theorem cleanup_iterate_preserves (now₂ : Time) (i : String)
    (r : ApprovalRecord) :
    ∀ (n : Nat) (s : ServiceState),
      (s.db.map (fun x => x.id)).Nodup →
      findRecord s.db i = some r →
      isExpired r now₂ = false →
      findRecord
          (((fun st => cleanupExpiredApprovals st now₂)^[n]) s).db i
        = some r := by
  intro n
  induction n with
  | zero => intro s _ h _; simpa using h
  | succ m ih =>
      intro s hnd hf he
      rw [Function.iterate_succ_apply]
      exact ih _ (by rw [cleanup_ids]; exact hnd)
        (cleanup_preserves_record s now₂ i r hnd hf he) he

/-- A response never writes the pending status back. -/
theorem responseStatus_ne_pending (approved : Bool)
    (notes : Option String) :
    responseStatus approved notes ≠ ApprovalStatus.pending := by
  by_cases h : approved <;> rcases notes with _ | v <;>
    simp [responseStatus, h]

/-- A non-pending row is never selected by the sweep. -/
theorem isExpired_false_of_not_pending (r : ApprovalRecord) (now : Time)
    (h : r.status ≠ ApprovalStatus.pending) :
    isExpired r now = false := by
  simp [isExpired, h]

/-- C9: the expiry sweep mutates only rows that are still pending with a
passed due date: any stored row that the sweep guard does not select — in
particular any already-resolved row — survives any number of sweeps
unchanged (given unique ids); and after a successful
`submit_approval_response` the resolved row keeps its terminal status
through any number of subsequent sweeps. -/
theorem C9_cleanup_noop_after_resolution
    (s : ServiceState) (now₂ : Time) (i : String) (r : ApprovalRecord)
    (s₀ : ServiceState) (approval_id user : String) (approved : Bool)
    (sel fb notes : Option String) (now : Time) (s' : ServiceState)
    (resp : SubmitResponse) (n m : Nat)
    (hnodup : (s.db.map (fun x => x.id)).Nodup)
    (hfind : findRecord s.db i = some r)
    (hexp : isExpired r now₂ = false)
    (hnodup₀ : (s₀.db.map (fun x => x.id)).Nodup)
    (hsubmit : submitApprovalResponse s₀ approval_id user approved sel fb
      notes now = Except.ok (s', resp)) :
    findRecord (((fun st => cleanupExpiredApprovals st now₂)^[n]) s).db i
        = some r ∧
    (findRecord s'.db approval_id).map (fun x => x.status)
        = some (responseStatus approved notes) ∧
    findRecord
        (((fun st => cleanupExpiredApprovals st now₂)^[m]) s').db approval_id
      = findRecord s'.db approval_id := by
  refine ⟨cleanup_iterate_preserves now₂ i r n s hnodup hfind hexp, ?_, ?_⟩
  all_goals {
    rcases hf : findRecord s₀.db approval_id with _ | r₀
    case none =>
      exfalso
      simp only [submitApprovalResponse, hf] at hsubmit
      exact Except.noConfusion hsubmit
    case some =>
      by_cases hps : r₀.status = ApprovalStatus.pending
      case neg =>
        exfalso
        simp only [submitApprovalResponse, hf] at hsubmit
        rw [if_pos hps] at hsubmit
        exact Except.noConfusion hsubmit
      case pos =>
        obtain ⟨s'', hok, hdb, _, _⟩ := submit_pending_ok s₀ approval_id user
          approved sel fb notes now r₀ hf hps
        rw [hok] at hsubmit
        obtain ⟨hS, hR⟩ := Prod.mk.inj (Except.ok.inj hsubmit)
        rw [hS] at hdb
        have hrid : r₀.id = approval_id := by
          simpa using List.find?_some hf
        have hfind' : findRecord s'.db approval_id = some
            { r₀ with
              status := responseStatus approved notes
              approved_at := some now
              approved_by := some user
              selected_option := sel
              feedback := fb
              revision_notes := notes
              response_time_seconds := some ⌊now - r₀.requested_at⌋ } := by
          rw [hdb, findRecord_map _ _ (fun x => by split <;> rfl), hf]
          simp [hrid]
        first
        | (rw [hfind']; rfl)
        | (have hnd' : (s'.db.map (fun x => x.id)).Nodup := by
            rw [hdb, List.map_map]
            have : ((fun x : ApprovalRecord => x.id) ∘ (fun x =>
                if x.id = approval_id then
                  { x with
                    status := responseStatus approved notes
                    approved_at := some now
                    approved_by := some user
                    selected_option := sel
                    feedback := fb
                    revision_notes := notes
                    response_time_seconds := some ⌊now - r₀.requested_at⌋ }
                else x)) = (fun x : ApprovalRecord => x.id) := by
              funext x
              by_cases h : x.id = approval_id <;> simp [h]
            rw [this]
            exact hnodup₀
           rw [hfind',
             cleanup_iterate_preserves now₂ approval_id _ m s' hnd' hfind'
               (isExpired_false_of_not_pending _ now₂
                 (responseStatus_ne_pending approved notes))])
  }

/-- C9 witness: the theorem applied to the reachable state where request
`a` was approved, with one sweep on the untouched resolved state and two
sweeps after the response. -/
theorem C9_cleanup_noop_after_resolution_witness :
    findRecord
        (((fun st => cleanupExpiredApprovals st 999999)^[1])
          stateResolvedA).db "a" = some resolvedRecordA ∧
    (findRecord stateResolvedA.db "a").map (fun x => x.status)
        = some (responseStatus true none) ∧
    findRecord
        (((fun st => cleanupExpiredApprovals st 999999)^[2])
          stateResolvedA).db "a"
      = findRecord stateResolvedA.db "a" :=
  C9_cleanup_noop_after_resolution stateResolvedA 999999 "a" resolvedRecordA
    stateTwoAB "a" "alice" true none none none 100 stateResolvedA responseA
    1 2 (by decide) rfl (by decide) (by decide) rfl

end AIVideo
